import Mathlib

/-
Verification of the voxel-streaming core of the `shader-practice` repository.

Shallow embedding of `src/voxels.rs` and
`src/raycast_hierarchy_feedback/pipeline.rs`:
pure Rust functions become Lean functions, `i32`/`usize` casts are made
explicit as arithmetic on `Int`/`Nat` modulo the machine width, array
indexing that can panic returns `Option` (with `none` modelling the panic),
and the `HashMap`s are modelled as functions to `Option`.
-/

/-! ## Constants (`voxels.rs` lines 9-11) -/

def CHUNK_SIDE : Nat := 32

def CHUNK_AREA : Nat := CHUNK_SIDE * CHUNK_SIDE

def CHUNK_VOLUME : Nat := CHUNK_AREA * CHUNK_SIDE

/-! ## glam `IVec3`

Components are `i32` in the source; they are modelled as unbounded `Int`.
All operations the source performs on positions (`div_euclid`,
`rem_euclid` by 32, multiplication of the quotient by 32) agree with
`i32` semantics on every representable `i32` input, since none of them
can overflow there. Rust's `div_euclid`/`rem_euclid` are Euclidean
division, which is `Int.ediv`/`Int.emod`. -/

structure IVec3 where
  x : Int
  y : Int
  z : Int
deriving DecidableEq, Repr

def IVec3.splat (v : Int) : IVec3 := ⟨v, v, v⟩

def IVec3.div_euclid (a b : IVec3) : IVec3 :=
  ⟨a.x.ediv b.x, a.y.ediv b.y, a.z.ediv b.z⟩

def IVec3.rem_euclid (a b : IVec3) : IVec3 :=
  ⟨a.x.emod b.x, a.y.emod b.y, a.z.emod b.z⟩

def IVec3.mul (a b : IVec3) : IVec3 :=
  ⟨a.x * b.x, a.y * b.y, a.z * b.z⟩

/-! ## Machine-integer casts

`x as usize` on an `i32` sign-extends to 64 bits and reinterprets;
`n as i32` on a `usize` truncates to the low 32 bits and reinterprets. -/

def usize_of_i32 (x : Int) : Nat := (x % (2 ^ 64 : Int)).toNat

def i32_of_usize (n : Nat) : Int :=
  let m : Nat := n % 2 ^ 32
  if m < 2 ^ 31 then (m : Int) else (m : Int) - 2 ^ 32

/-! ## `Block` (`voxels.rs` lines 121-138) -/

structure Block where
  id : Nat
  properties : Nat
  light0 : Nat
  light1 : Nat
deriving DecidableEq, Repr

def Block.default : Block := ⟨0, 0, 0, 0⟩

def Block.from_id (id : Nat) : Block := ⟨id, 0, 0, 0⟩

/-! ## `Chunk` (`voxels.rs` lines 65-118)

The source struct holds `_blocks: Arc<RwLock<[Block; CHUNK_VOLUME]>>` and
`dirty_render: bool` - nothing else; in particular it has no version
counter. The lock is an ownership device, so the state is modelled as the
guarded array itself. Indexing `[idx]` panics when out of bounds; the
panic is modelled by `Option`. -/

structure Chunk where
  _blocks : Fin CHUNK_VOLUME → Block
  dirty_render : Bool

def Chunk.xyz2idx (xyz : IVec3) : Nat :=
  (usize_of_i32 xyz.x * CHUNK_AREA + usize_of_i32 xyz.y * CHUNK_SIDE
    + usize_of_i32 xyz.z) % 2 ^ 64

def Chunk.idx2xyz (index : Nat) : IVec3 :=
  let layer := index / CHUNK_SIDE
  ⟨i32_of_usize (layer / CHUNK_SIDE), i32_of_usize (layer % CHUNK_SIDE),
    i32_of_usize (index % CHUNK_SIDE)⟩

def Chunk.empty : Chunk :=
  { _blocks := fun _ => Block.default, dirty_render := false }

def Chunk.set_block (c : Chunk) (xyz : IVec3) (block : Block) : Option Chunk :=
  if h : Chunk.xyz2idx xyz < CHUNK_VOLUME then
    some { c with _blocks := Function.update c._blocks ⟨Chunk.xyz2idx xyz, h⟩ block }
  else
    none

def Chunk.read_block (c : Chunk) (xyz : IVec3) : Option Block :=
  if h : Chunk.xyz2idx xyz < CHUNK_VOLUME then
    some (c._blocks ⟨Chunk.xyz2idx xyz, h⟩)
  else
    none

/-! ## `Universe` (`voxels.rs` lines 31-63)

`chunks: HashMap<IVec3, Chunk>` is modelled as a function to `Option`.
`read_chunk_block` returns `Option Block` in the source (`none` = chunk
absent); on top of that an outer `Option` models the indexing panic, so
`some none` is "chunk absent", `some (some b)` is a read block and `none`
is a panic. Likewise `set_chunk_block`'s outer `Option`. -/

structure Universe where
  chunks : IVec3 → Option Chunk

def Universe.pos_to_chunk_and_inner (pos : IVec3) : IVec3 × IVec3 :=
  let chunk_size := IVec3.splat (CHUNK_SIDE : Nat)
  let chunk_pos := (pos.div_euclid chunk_size).mul chunk_size
  let inner_pos := pos.rem_euclid chunk_size
  (chunk_pos, inner_pos)

def Universe.read_chunk_block (u : Universe) (pos : IVec3) : Option (Option Block) :=
  let (chunk_pos, inner_pos) := Universe.pos_to_chunk_and_inner pos
  match u.chunks chunk_pos with
  | none => some none
  | some chunk => (chunk.read_block inner_pos).map some

def Universe.set_chunk_block (u : Universe) (pos : IVec3) (block : Block) :
    Option Universe :=
  let (chunk_pos, inner_pos) := Universe.pos_to_chunk_and_inner pos
  match u.chunks chunk_pos with
  | some chunk =>
      (chunk.set_block inner_pos block).map fun c =>
        { chunks := Function.update u.chunks chunk_pos
            (some { c with dirty_render := true }) }
  | none =>
      (Chunk.empty.set_block inner_pos block).map fun c =>
        { chunks := Function.update u.chunks chunk_pos
            (some { c with dirty_render := true }) }

/-- The empty universe (`Universe::default()`). -/
def Universe.emptyU : Universe := ⟨fun _ => none⟩

/-! ## Helper lemmas on coordinate resolution -/

lemma pos_to_chunk_and_inner_def (pos : IVec3) :
    Universe.pos_to_chunk_and_inner pos =
      (⟨pos.x.ediv 32 * 32, pos.y.ediv 32 * 32, pos.z.ediv 32 * 32⟩,
       ⟨pos.x.emod 32, pos.y.emod 32, pos.z.emod 32⟩) := rfl

lemma usize_of_i32_small (x : Int) (h0 : 0 ≤ x) (h1 : x < 2 ^ 64) :
    usize_of_i32 x = x.toNat := by
  unfold usize_of_i32
  rw [Int.emod_eq_of_lt h0 h1]

lemma i32_of_usize_small (n : Nat) (h : n < 2 ^ 31) : i32_of_usize n = (n : Int) := by
  unfold i32_of_usize
  have hm : n % 2 ^ 32 = n := Nat.mod_eq_of_lt (by omega)
  simp only [hm]
  rw [if_pos h]

lemma xyz2idx_of_range (x y z : Int) (hx0 : 0 ≤ x) (hx1 : x < 32)
    (hy0 : 0 ≤ y) (hy1 : y < 32) (hz0 : 0 ≤ z) (hz1 : z < 32) :
    Chunk.xyz2idx ⟨x, y, z⟩ = x.toNat * 1024 + y.toNat * 32 + z.toNat ∧
      Chunk.xyz2idx ⟨x, y, z⟩ < CHUNK_VOLUME := by
  unfold Chunk.xyz2idx CHUNK_VOLUME CHUNK_AREA CHUNK_SIDE
  rw [usize_of_i32_small x hx0 (by omega), usize_of_i32_small y hy0 (by omega),
    usize_of_i32_small z hz0 (by omega)]
  omega

lemma inner_range (pos : IVec3) :
    (0 ≤ ((Universe.pos_to_chunk_and_inner pos).2).x ∧
      ((Universe.pos_to_chunk_and_inner pos).2).x < 32) ∧
    (0 ≤ ((Universe.pos_to_chunk_and_inner pos).2).y ∧
      ((Universe.pos_to_chunk_and_inner pos).2).y < 32) ∧
    (0 ≤ ((Universe.pos_to_chunk_and_inner pos).2).z ∧
      ((Universe.pos_to_chunk_and_inner pos).2).z < 32) := by
  rw [pos_to_chunk_and_inner_def]
  refine ⟨⟨Int.emod_nonneg _ (by norm_num), Int.emod_lt_of_pos _ (by norm_num)⟩,
    ⟨Int.emod_nonneg _ (by norm_num), Int.emod_lt_of_pos _ (by norm_num)⟩,
    ⟨Int.emod_nonneg _ (by norm_num), Int.emod_lt_of_pos _ (by norm_num)⟩⟩

lemma xyz2idx_inner_lt (pos : IVec3) :
    Chunk.xyz2idx (Universe.pos_to_chunk_and_inner pos).2 < CHUNK_VOLUME := by
  obtain ⟨⟨hx0, hx1⟩, ⟨hy0, hy1⟩, ⟨hz0, hz1⟩⟩ := inner_range pos
  exact (xyz2idx_of_range _ _ _ hx0 hx1 hy0 hy1 hz0 hz1).2

/-! ## Claim C7: negative-coordinate resolution -/

/-- C7: coordinate resolution uses Euclidean division and remainder, so
world position `(-1, -1, -1)` resolves to chunk coordinate
`(-32, -32, -32)` and inner coordinate `(31, 31, 31)`; both
`read_chunk_block` and `set_chunk_block` resolve through this function. -/
theorem neg_coordinate_resolution :
    Universe.pos_to_chunk_and_inner ⟨-1, -1, -1⟩ =
      (⟨-32, -32, -32⟩, ⟨31, 31, 31⟩) := by decide

/-! ## Claim C3: reading an absent chunk -/

/-- C3 counterexample: the claim says a read in an absent chunk returns the
default all-zero `Block`; in the source `read_chunk_block` returns
`Option<Block>` and yields `None` (here the inner `none`) for an absent
chunk, not a default block. -/
theorem read_absent_returns_none_not_default :
    Universe.read_chunk_block Universe.emptyU ⟨0, 0, 0⟩ = some none ∧
    Universe.read_chunk_block Universe.emptyU ⟨0, 0, 0⟩ ≠
      some (some Block.default) := by
  refine ⟨by decide, by decide⟩

/-- C3 amended: the block-read operation never panics (the outer `Option`,
which models the indexing panic, is always `some`); if the chunk containing
`pos` is absent it returns `None` (no block) rather than a default block. -/
theorem read_chunk_block_total (u : Universe) (pos : IVec3) :
    (u.read_chunk_block pos).isSome = true ∧
    (u.chunks (Universe.pos_to_chunk_and_inner pos).1 = none →
      u.read_chunk_block pos = some none) := by
  have hlt := xyz2idx_inner_lt pos
  unfold Universe.read_chunk_block
  rcases hpi : Universe.pos_to_chunk_and_inner pos with ⟨cp, ip⟩
  rw [hpi] at hlt
  cases hc : u.chunks cp with
  | none => simp [hc]
  | some c => simp [hc, Chunk.read_block, hlt]

/-- C3 amended, witness at the empty universe and position `(0,0,0)`. -/
theorem read_chunk_block_total_witness :
    (Universe.read_chunk_block Universe.emptyU ⟨0, 0, 0⟩).isSome = true ∧
    Universe.read_chunk_block Universe.emptyU ⟨0, 0, 0⟩ = some none :=
  ⟨(read_chunk_block_total Universe.emptyU ⟨0, 0, 0⟩).1,
   (read_chunk_block_total Universe.emptyU ⟨0, 0, 0⟩).2 rfl⟩

/-! ## Claim C6: world round-trip -/

/-- C6: for every universe, position and block, writing the block and then
reading at the same position returns that block (successfully, with no
panic), including when the chunk was absent before the write and is created
lazily. -/
theorem world_write_read_roundtrip (u : Universe) (pos : IVec3) (b : Block) :
    (u.set_chunk_block pos b).bind (fun u2 => u2.read_chunk_block pos) =
      some (some b) := by
  have hlt := xyz2idx_inner_lt pos
  unfold Universe.set_chunk_block Universe.read_chunk_block
  rcases hpi : Universe.pos_to_chunk_and_inner pos with ⟨cp, ip⟩
  rw [hpi] at hlt
  cases hc : u.chunks cp with
  | none =>
      simp [hc, Chunk.set_block, Chunk.read_block, hlt, Function.update_same]
  | some c =>
      simp [hc, Chunk.set_block, Chunk.read_block, hlt, Function.update_same]

/-! ## Claim C4: chunk version counter -/

/-- C4 evidence: `set_chunk_block` is idempotent on the entire program
state: writing the same block at the same position twice yields a state
equal to writing it once. The `Chunk` struct of `voxels.rs` consists of
exactly the voxel array and the `dirty_render` flag; no per-chunk version
counter exists, so no state component strictly increases on every write
(a strictly increasing counter would make the two sides differ). -/
theorem set_chunk_block_idempotent (u : Universe) (pos : IVec3) (b : Block) :
    (u.set_chunk_block pos b).bind (fun u2 => u2.set_chunk_block pos b) =
      u.set_chunk_block pos b := by
  have hlt := xyz2idx_inner_lt pos
  unfold Universe.set_chunk_block
  rcases hpi : Universe.pos_to_chunk_and_inner pos with ⟨cp, ip⟩
  rw [hpi] at hlt
  cases hc : u.chunks cp with
  | none =>
      simp [hc, Chunk.set_block, hlt, Function.update_same, Function.update_idem]
  | some c =>
      simp [hc, Chunk.set_block, hlt, Function.update_same, Function.update_idem]

/-! ## Claim C9: index mappings are mutually inverse -/

/-- C9: for every `i < CHUNK_VOLUME`, `xyz2idx (idx2xyz i) = i`, and for
every coordinate with all components in `[0, CHUNK_SIDE)`,
`idx2xyz (xyz2idx v) = v`. -/
theorem chunk_index_bijection :
    (∀ i : Nat, i < CHUNK_VOLUME → Chunk.xyz2idx (Chunk.idx2xyz i) = i) ∧
    (∀ v : IVec3, 0 ≤ v.x → v.x < (CHUNK_SIDE : Int) →
      0 ≤ v.y → v.y < (CHUNK_SIDE : Int) →
      0 ≤ v.z → v.z < (CHUNK_SIDE : Int) →
      Chunk.idx2xyz (Chunk.xyz2idx v) = v) := by
  constructor
  · intro i hi
    have hiv : i < 32768 := by
      unfold CHUNK_VOLUME CHUNK_AREA CHUNK_SIDE at hi; omega
    show Chunk.xyz2idx
        ⟨i32_of_usize (i / CHUNK_SIDE / CHUNK_SIDE),
         i32_of_usize (i / CHUNK_SIDE % CHUNK_SIDE),
         i32_of_usize (i % CHUNK_SIDE)⟩ = i
    unfold CHUNK_SIDE
    rw [i32_of_usize_small _ (by omega), i32_of_usize_small _ (by omega),
      i32_of_usize_small _ (by omega)]
    have h := (xyz2idx_of_range ((i / 32 / 32 : Nat) : Int)
      ((i / 32 % 32 : Nat) : Int) ((i % 32 : Nat) : Int)
      (by omega) (by omega) (by omega) (by omega) (by omega) (by omega)).1
    rw [h]
    omega
  · intro v hx0 hx1 hy0 hy1 hz0 hz1
    rcases v with ⟨vx, vy, vz⟩
    have hx0' : 0 ≤ vx := hx0
    have hy0' : 0 ≤ vy := hy0
    have hz0' : 0 ≤ vz := hz0
    have hx1' : vx < 32 := by simpa [CHUNK_SIDE] using hx1
    have hy1' : vy < 32 := by simpa [CHUNK_SIDE] using hy1
    have hz1' : vz < 32 := by simpa [CHUNK_SIDE] using hz1
    obtain ⟨hidx, _⟩ := xyz2idx_of_range vx vy vz hx0' hx1' hy0' hy1' hz0' hz1'
    rw [hidx]
    show (⟨i32_of_usize
          ((vx.toNat * 1024 + vy.toNat * 32 + vz.toNat) / CHUNK_SIDE / CHUNK_SIDE),
        i32_of_usize
          ((vx.toNat * 1024 + vy.toNat * 32 + vz.toNat) / CHUNK_SIDE % CHUNK_SIDE),
        i32_of_usize
          ((vx.toNat * 1024 + vy.toNat * 32 + vz.toNat) % CHUNK_SIDE)⟩ : IVec3) =
      ⟨vx, vy, vz⟩
    unfold CHUNK_SIDE
    have ha : (vx.toNat * 1024 + vy.toNat * 32 + vz.toNat) / 32 / 32 = vx.toNat := by
      omega
    have hb : (vx.toNat * 1024 + vy.toNat * 32 + vz.toNat) / 32 % 32 = vy.toNat := by
      omega
    have hc : (vx.toNat * 1024 + vy.toNat * 32 + vz.toNat) % 32 = vz.toNat := by
      omega
    rw [ha, hb, hc, i32_of_usize_small _ (by omega), i32_of_usize_small _ (by omega),
      i32_of_usize_small _ (by omega)]
    simp only [IVec3.mk.injEq]
    refine ⟨by omega, by omega, by omega⟩

/-- C9 witness: both directions evaluated at concrete inputs
(`i = 1057`, `v = (1, 1, 1)`). -/
theorem chunk_index_bijection_witness :
    Chunk.xyz2idx (Chunk.idx2xyz 1057) = 1057 ∧
    Chunk.idx2xyz (Chunk.xyz2idx ⟨1, 1, 1⟩) = ⟨1, 1, 1⟩ :=
  ⟨chunk_index_bijection.1 1057 (by decide),
   chunk_index_bijection.2 ⟨1, 1, 1⟩ (by decide) (by decide) (by decide)
     (by decide) (by decide) (by decide)⟩

/-! ## Claim C10: inner coordinates are in bounds, no indexing panic -/

/-- C10: for every world-space position, the inner coordinate produced by
`pos_to_chunk_and_inner` has each component in `[0, CHUNK_SIDE)`, the
array index computed from it is below `CHUNK_VOLUME`, and consequently
`set_chunk_block` and `read_chunk_block` never hit the out-of-bounds
indexing panic (modelled by the outer `Option` being `none`). -/
theorem world_interface_in_bounds (u : Universe) (pos : IVec3) (b : Block) :
    (0 ≤ ((Universe.pos_to_chunk_and_inner pos).2).x ∧
      ((Universe.pos_to_chunk_and_inner pos).2).x < (CHUNK_SIDE : Int)) ∧
    (0 ≤ ((Universe.pos_to_chunk_and_inner pos).2).y ∧
      ((Universe.pos_to_chunk_and_inner pos).2).y < (CHUNK_SIDE : Int)) ∧
    (0 ≤ ((Universe.pos_to_chunk_and_inner pos).2).z ∧
      ((Universe.pos_to_chunk_and_inner pos).2).z < (CHUNK_SIDE : Int)) ∧
    Chunk.xyz2idx (Universe.pos_to_chunk_and_inner pos).2 < CHUNK_VOLUME ∧
    (u.set_chunk_block pos b).isSome = true ∧
    (u.read_chunk_block pos).isSome = true := by
  obtain ⟨⟨hx0, hx1⟩, ⟨hy0, hy1⟩, ⟨hz0, hz1⟩⟩ := inner_range pos
  have hlt := xyz2idx_inner_lt pos
  refine ⟨⟨hx0, by simpa [CHUNK_SIDE] using hx1⟩,
    ⟨hy0, by simpa [CHUNK_SIDE] using hy1⟩,
    ⟨hz0, by simpa [CHUNK_SIDE] using hz1⟩, hlt, ?_, ?_⟩
  · unfold Universe.set_chunk_block
    rcases hpi : Universe.pos_to_chunk_and_inner pos with ⟨cp, ip⟩
    rw [hpi] at hlt
    cases hc : u.chunks cp with
    | none => simp [hc, Chunk.set_block, hlt]
    | some c => simp [hc, Chunk.set_block, hlt]
  · unfold Universe.read_chunk_block
    rcases hpi : Universe.pos_to_chunk_and_inner pos with ⟨cp, ip⟩
    rw [hpi] at hlt
    cases hc : u.chunks cp with
    | none => simp [hc]
    | some c => simp [hc, Chunk.read_block, hlt]

/-! ## `raycast_hierarchy_feedback/pipeline.rs`

The feedback pipeline. `FeedbackReadStatus` is the source enum (lines
23-28). glam's `Vec4` appears in the feedback records; the code only ever
stores `Vec4::ZERO` into it or copies whole records, so each `f32` lane is
modelled by its raw 32-bit pattern as a `Nat`. -/

def FEEDBACK_BUFFER_SIZE : Nat := 16

structure Vec4 where
  x : Nat
  y : Nat
  z : Nat
  w : Nat
deriving DecidableEq, Repr

def Vec4.ZERO : Vec4 := ⟨0, 0, 0, 0⟩

structure Feedback where
  requested : Fin FEEDBACK_BUFFER_SIZE → Vec4

def Feedback.empty : Feedback := ⟨fun _ => Vec4.ZERO⟩

inductive FeedbackReadStatus where
  | Idle
  | WaitForRead
  | Mapped
deriving DecidableEq, Repr

/-- Modelled from the spec: `ChunkVersion`, the `u64`-like monotonically
increasing per-chunk version counter. The type is used at
`raycast_hierarchy_feedback/pipeline.rs` lines 40 and 271-279 but is not
defined in any file under `src/` (and the `Chunk` of `voxels.rs` carries
no `version` field); the residency logic only compares and copies it. -/
abbrev ChunkVersion : Type := Nat

/-- The residency-tracker update of `extract`
(`raycast_hierarchy_feedback/pipeline.rs` lines 264-280), abstracted over
the requested chunk coordinate and the live chunk's version: returns the
updated `loaded_chunks` map and the `reload` flag. -/
def loaded_chunks_resolve (loaded_chunks : IVec3 → Option ChunkVersion)
    (chunk_pos : IVec3) (chunk_version : ChunkVersion) :
    (IVec3 → Option ChunkVersion) × Bool :=
  match loaded_chunks chunk_pos with
  | some loaded_version =>
      if chunk_version ≠ loaded_version then
        (Function.update loaded_chunks chunk_pos (some chunk_version), true)
      else
        (loaded_chunks, false)
  | none =>
      (Function.update loaded_chunks chunk_pos (some chunk_version), true)

/-- The host-visible state acted on by `extract`'s read-back state machine:
the status cell, whether the CPU staging buffer is currently host-mapped,
the contents read back into it, the device-side feedback buffer contents,
and the raw bytes of the stream (chunk staging) buffer. -/
structure PipelineHostState where
  feedback_read_available : FeedbackReadStatus
  cpu_buffer_mapped : Bool
  feedback_cpu_buffer : Feedback
  feedback_gpu_buffer : Feedback
  stream_buffer : Fin (CHUNK_VOLUME * 4 * FEEDBACK_BUFFER_SIZE) → Nat

/-- The `FeedbackReadStatus::Mapped` arm of `extract`
(`raycast_hierarchy_feedback/pipeline.rs` lines 319-335): the mapped range
is read into `feed` (which the code never uses afterwards), the buffer is
unmapped, the status is set back to `Idle`, and the device-side feedback
buffer is overwritten with `Feedback::empty()`. Nothing is written to the
stream buffer and the `Universe` is not consulted (the function does not
even need it): the streaming step exists in the source only as the comment
at line 327. -/
def extract_mapped (s : PipelineHostState) : PipelineHostState :=
  let _feed : Feedback := s.feedback_cpu_buffer
  { s with
      cpu_buffer_mapped := false,
      feedback_read_available := FeedbackReadStatus.Idle,
      feedback_gpu_buffer := Feedback.empty }

/-- The completion callback passed to `map_async`
(`raycast_hierarchy_feedback/pipeline.rs` lines 308-316): on `Ok` it stores
`Mapped` into the shared status cell; on `Err` it calls
`panic!("feedback mapping error")`, modelled as `Except.error`. -/
structure BufferAsyncError where
  deviceLost : Bool

def map_async_callback (result : Except BufferAsyncError Unit)
    (_status : FeedbackReadStatus) : Except String FeedbackReadStatus :=
  match result with
  | Except.ok () => Except.ok FeedbackReadStatus.Mapped
  | Except.error _ => Except.error "feedback mapping error"

/-! ## Claim C1: the Mapped-state processing tick -/

/-- C1 evidence: on the `Mapped` arm the code releases host access, goes
back to `Idle` and zeroes the device-side feedback buffer, but the stream
buffer is left byte-for-byte unchanged: no requested coordinate is
resolved against the `Universe` and no payload is pushed into the Stream
Channel, whatever the read-back contents were. -/
theorem extract_mapped_no_streaming (s : PipelineHostState) :
    (extract_mapped s).stream_buffer = s.stream_buffer ∧
    (extract_mapped s).feedback_read_available = FeedbackReadStatus.Idle ∧
    (extract_mapped s).feedback_gpu_buffer = Feedback.empty ∧
    (extract_mapped s).cpu_buffer_mapped = false ∧
    (extract_mapped s).feedback_cpu_buffer = s.feedback_cpu_buffer :=
  ⟨rfl, rfl, rfl, rfl, rfl⟩

/-! ## Claim C8: host-mapping failure is fatal -/

/-- C8: if the asynchronous map request reports an error the completion
callback panics (a hard failure, modelled as `Except.error`), never
producing a new status and hence never retrying; on success it stores
`Mapped`, and this callback's error arm is the machine's only failure
path (every other arm of `extract` is a total state update). -/
theorem map_async_error_fatal (e : BufferAsyncError) (s : FeedbackReadStatus)
    (r : Except BufferAsyncError Unit) :
    map_async_callback (Except.error e) s = Except.error "feedback mapping error" ∧
    (∀ s2 : FeedbackReadStatus, map_async_callback (Except.error e) s ≠ Except.ok s2) ∧
    map_async_callback (Except.ok ()) s = Except.ok FeedbackReadStatus.Mapped ∧
    ((∃ msg, map_async_callback r s = Except.error msg) ↔ r.isOk = false) := by
  refine ⟨rfl, ?_, rfl, ?_⟩
  · intro s2 h
    exact Except.noConfusion h
  · cases r with
    | ok u =>
        cases u
        constructor
        · rintro ⟨msg, h⟩
          exact Except.noConfusion h
        · intro h
          exact Bool.noConfusion h
    | error e2 =>
        constructor
        · intro _
          rfl
        · intro _
          exact ⟨"feedback mapping error", rfl⟩

/-! ## Claim C5: residency-tracker idempotence -/

/-- C5: the upload decision is idempotent: resolving the same coordinate
again with an unchanged version reports `reload = false` and leaves the
tracker untouched; a first-time coordinate or a changed version reports
`reload = true` with the tracker already updated to the new version (the
update happens inside the decision itself, before the reload branch where
an upload would be queued). -/
theorem residency_resolve_idempotent (loaded : IVec3 → Option ChunkVersion)
    (p : IVec3) (v : ChunkVersion) :
    loaded_chunks_resolve (loaded_chunks_resolve loaded p v).1 p v =
      ((loaded_chunks_resolve loaded p v).1, false) ∧
    (loaded_chunks_resolve loaded p v).1 p = some v ∧
    (loaded p = none →
      loaded_chunks_resolve loaded p v =
        (Function.update loaded p (some v), true)) ∧
    (∀ lv : ChunkVersion, loaded p = some lv → lv ≠ v →
      loaded_chunks_resolve loaded p v =
        (Function.update loaded p (some v), true)) := by
  have habsent : ∀ (t : IVec3 → Option ChunkVersion), t p = none →
      loaded_chunks_resolve t p v = (Function.update t p (some v), true) := by
    intro t h
    unfold loaded_chunks_resolve
    rw [h]
  have hsame : ∀ (t : IVec3 → Option ChunkVersion), t p = some v →
      loaded_chunks_resolve t p v = (t, false) := by
    intro t h
    unfold loaded_chunks_resolve
    rw [h]
    simp
  have hdiff : ∀ (t : IVec3 → Option ChunkVersion) (lv : ChunkVersion),
      t p = some lv → v ≠ lv →
      loaded_chunks_resolve t p v = (Function.update t p (some v), true) := by
    intro t lv h hne
    unfold loaded_chunks_resolve
    rw [h]
    simp [hne]
  have htracked : (loaded_chunks_resolve loaded p v).1 p = some v := by
    cases hc : loaded p with
    | none => rw [habsent loaded hc]; exact Function.update_same p (some v) loaded
    | some lv =>
        by_cases hne : v = lv
        · subst hne
          rw [hsame loaded hc]
          exact hc
        · rw [hdiff loaded lv hc hne]
          exact Function.update_same p (some v) loaded
  refine ⟨?_, htracked, habsent loaded, ?_⟩
  · rw [hsame _ htracked]
  · intro lv hlv hne
    exact hdiff loaded lv hlv (Ne.symm hne)

/-- C5 witness: starting from the empty tracker at coordinate `(0,0,0)`
with version `7`: the first resolution is a reload that records the
version, the second is a no-op. -/
theorem residency_resolve_idempotent_witness :
    loaded_chunks_resolve
        (loaded_chunks_resolve (fun _ => none) ⟨0, 0, 0⟩ 7).1 ⟨0, 0, 0⟩ 7 =
      ((loaded_chunks_resolve (fun _ => none) ⟨0, 0, 0⟩ 7).1, false) ∧
    (loaded_chunks_resolve (fun _ => none) ⟨0, 0, 0⟩ 7).1 ⟨0, 0, 0⟩ = some 7 ∧
    loaded_chunks_resolve (fun _ => none) ⟨0, 0, 0⟩ 7 =
      (Function.update (fun _ => none) ⟨0, 0, 0⟩ (some 7), true) :=
  ⟨(residency_resolve_idempotent (fun _ => none) ⟨0, 0, 0⟩ 7).1,
   (residency_resolve_idempotent (fun _ => none) ⟨0, 0, 0⟩ 7).2.1,
   (residency_resolve_idempotent (fun _ => none) ⟨0, 0, 0⟩ 7).2.2.1 rfl⟩

/-! ## Claim C2: sync state machine legality

The status cell is `feedback_read_available: Arc<RwLock<FeedbackReadStatus>>`,
mutated by the tick loop (`extract`, lines 302-336) and by the `map_async`
completion callback. `inflight` counts map requests issued and not yet
completed. The `Idle` arm of `extract` stores `WaitForRead` *before*
calling `map_async` (line 305 before line 308), so status update and
request issue form one step and a callback can only fire from a state
whose request is already recorded; `WaitForRead` does nothing;
`Mapped` consumes and stores `Idle`; the callback's success arm stores
`Mapped` for the completed request. -/

structure SyncState where
  status : FeedbackReadStatus
  inflight : Nat
deriving DecidableEq, Repr

/-- Initial state from `Pipeline::new` (line 256): `Idle`, no request. -/
def SyncState.init : SyncState := ⟨FeedbackReadStatus.Idle, 0⟩

inductive SyncStep : SyncState → SyncState → Prop where
  | tick_idle (s : SyncState) (h : s.status = FeedbackReadStatus.Idle) :
      SyncStep s ⟨FeedbackReadStatus.WaitForRead, s.inflight + 1⟩
  | tick_wait (s : SyncState) (h : s.status = FeedbackReadStatus.WaitForRead) :
      SyncStep s s
  | tick_mapped (s : SyncState) (h : s.status = FeedbackReadStatus.Mapped) :
      SyncStep s ⟨FeedbackReadStatus.Idle, s.inflight⟩
  | callback_ok (s : SyncState) (h : 0 < s.inflight) :
      SyncStep s ⟨FeedbackReadStatus.Mapped, s.inflight - 1⟩

def SyncReachable (s : SyncState) : Prop :=
  Relation.ReflTransGen SyncStep SyncState.init s

def SyncInv (s : SyncState) : Prop :=
  s.inflight ≤ 1 ∧ (s.status = FeedbackReadStatus.WaitForRead ↔ s.inflight = 1)

lemma syncInv_init : SyncInv SyncState.init := by
  constructor
  · decide
  · constructor
    · intro h
      exact FeedbackReadStatus.noConfusion h
    · intro h
      exact Nat.noConfusion h

lemma syncInv_step (s s' : SyncState) (hinv : SyncInv s) (hs : SyncStep s s') :
    SyncInv s' := by
  obtain ⟨h1, h2⟩ := hinv
  cases hs with
  | tick_idle hst =>
      have h0 : s.inflight = 0 := by
        by_contra hne
        have hone : s.inflight = 1 := by omega
        rw [h2.mpr hone] at hst
        exact FeedbackReadStatus.noConfusion hst
      refine ⟨by show s.inflight + 1 ≤ 1; omega, ?_⟩
      constructor
      · intro _
        show s.inflight + 1 = 1
        omega
      · intro _
        rfl
  | tick_wait hst => exact ⟨h1, h2⟩
  | tick_mapped hst =>
      have h0 : s.inflight ≠ 1 := by
        intro hone
        rw [h2.mpr hone] at hst
        exact FeedbackReadStatus.noConfusion hst
      refine ⟨h1, ?_⟩
      constructor
      · intro h
        exact FeedbackReadStatus.noConfusion h
      · intro h
        have : s.inflight = 1 := h
        exact absurd this h0
  | callback_ok hpos =>
      refine ⟨by show s.inflight - 1 ≤ 1; omega, ?_⟩
      constructor
      · intro h
        exact FeedbackReadStatus.noConfusion h
      · intro h
        have h' : s.inflight - 1 = 1 := h
        omega

lemma syncReachable_inv (s : SyncState) (h : SyncReachable s) : SyncInv s := by
  induction h with
  | refl => exact syncInv_init
  | tail _ hstep ih => exact syncInv_step _ _ ih hstep

/-- C2: from any reachable state, every step of the sync state machine is
either a no-op or one of the three cycle transitions
`Idle → WaitForRead` (tick loop, status stored before the request can
complete), `WaitForRead → Mapped` (successful completion callback) or
`Mapped → Idle` (tick loop after consuming); no other status change is
possible, and at most one read-back is in flight on both sides of the
step. -/
theorem sync_state_machine_legal (s s' : SyncState) (hr : SyncReachable s)
    (hstep : SyncStep s s') :
    s.inflight ≤ 1 ∧ s'.inflight ≤ 1 ∧
    (s = s' ∨
      (s.status = FeedbackReadStatus.Idle ∧
        s'.status = FeedbackReadStatus.WaitForRead) ∨
      (s.status = FeedbackReadStatus.WaitForRead ∧
        s'.status = FeedbackReadStatus.Mapped) ∨
      (s.status = FeedbackReadStatus.Mapped ∧
        s'.status = FeedbackReadStatus.Idle)) := by
  obtain ⟨h1, h2⟩ := syncReachable_inv s hr
  cases hstep with
  | tick_idle hst =>
      have h0 : s.inflight = 0 := by
        by_contra hne
        have hone : s.inflight = 1 := by omega
        rw [h2.mpr hone] at hst
        exact FeedbackReadStatus.noConfusion hst
      exact ⟨h1, by show s.inflight + 1 ≤ 1; omega,
        Or.inr (Or.inl ⟨hst, rfl⟩)⟩
  | tick_wait hst => exact ⟨h1, h1, Or.inl rfl⟩
  | tick_mapped hst =>
      exact ⟨h1, h1, Or.inr (Or.inr (Or.inr ⟨hst, rfl⟩))⟩
  | callback_ok hpos =>
      have hone : s.inflight = 1 := by omega
      have hw := h2.mpr hone
      exact ⟨h1, by show s.inflight - 1 ≤ 1; omega,
        Or.inr (Or.inr (Or.inl ⟨hw, rfl⟩))⟩

/-- C2 witness: the first tick from the initial state takes
`Idle → WaitForRead` with one request in flight. -/
theorem sync_state_machine_legal_witness :
    SyncState.init.inflight ≤ 1 ∧
    (⟨FeedbackReadStatus.WaitForRead, 1⟩ : SyncState).inflight ≤ 1 ∧
    (SyncState.init = (⟨FeedbackReadStatus.WaitForRead, 1⟩ : SyncState) ∨
      (SyncState.init.status = FeedbackReadStatus.Idle ∧
        (⟨FeedbackReadStatus.WaitForRead, 1⟩ : SyncState).status =
          FeedbackReadStatus.WaitForRead) ∨
      (SyncState.init.status = FeedbackReadStatus.WaitForRead ∧
        (⟨FeedbackReadStatus.WaitForRead, 1⟩ : SyncState).status =
          FeedbackReadStatus.Mapped) ∨
      (SyncState.init.status = FeedbackReadStatus.Mapped ∧
        (⟨FeedbackReadStatus.WaitForRead, 1⟩ : SyncState).status =
          FeedbackReadStatus.Idle)) :=
  sync_state_machine_legal SyncState.init ⟨FeedbackReadStatus.WaitForRead, 1⟩
    Relation.ReflTransGen.refl (SyncStep.tick_idle SyncState.init rfl)
